import Mathlib

/-!
Verification of the CodeChain p2p discovery extension and the
`AssetScheme` state-item codec, shallowly embedded from
`src/discovery/src/unstructured/extension.rs` and
`src/state/src/item/asset_scheme.rs`.

The wire codec is embedded at the structural level: an `RlpItem` is the
parse tree of one list-encoded item (the byte-level framing lives in the
repository's rlp utility crate, which is outside the provided sources, so
it is modelled from the spec's Wire Codec contract, section 4.1).
-/

/-- Transport-level peer address (host + port), modelled abstractly. -/
abbrev SocketAddr := Nat

/-- Stable identifier of a peer; `cnetwork`'s `NodeId` converts to a
`SocketAddr` via `IntoSocketAddr`. -/
abbrev NodeId := Nat

/-- Modelled from the spec: `NodeId` to `SocketAddr` conversion
(`IntoSocketAddr` from `cnetwork`, not under the provided sources). -/
def into_addr (node : NodeId) : SocketAddr := node

/-- Modelled from the spec: decoder errors of the rlp utility crate
(section 4.1: `MalformedEncoding` / `UnexpectedPrefix` / `InvalidFieldCount`
style failures; the Rust names are `DecoderError::Rlp...` and
`DecoderError::Custom`). -/
inductive DecoderError where
  | RlpExpectedToBeList
  | RlpExpectedToBeData
  | RlpInvalidLength
  | RlpIsTooBig
  | RlpIncorrectListLen
  | Custom (msg : String)
deriving DecidableEq

/-- Modelled from the spec: the parse tree of one item of the compact,
length-prefixed, recursively-nestable "list encoding" (section 4.1):
an item is either a byte string or a list of items. -/
inductive RlpItem where
  | str (bytes : List Nat) : RlpItem
  | list (items : List RlpItem) : RlpItem

/-- Minimal big-endian base-256 digits of `n`, with explicit fuel so the
function is structurally recursive (the fuel `n` itself always suffices). -/
def natToBytesAux : Nat → Nat → List Nat
  | 0, _ => []
  | _ + 1, 0 => []
  | fuel + 1, n + 1 => natToBytesAux fuel ((n + 1) / 256) ++ [(n + 1) % 256]

/-- Minimal big-endian byte representation of a natural number, as the
rlp crate writes unsigned integers. -/
def natToBytes (n : Nat) : List Nat := natToBytesAux n n

/-- Big-endian interpretation of a byte string as a natural number. -/
def bytesToNat (l : List Nat) : Nat := l.foldl (fun acc b => acc * 256 + b) 0

/-- Modelled from the spec: encoding of an unsigned integer as a byte-string
item (minimal big-endian bytes). -/
def encUint (n : Nat) : RlpItem := .str (natToBytes n)

/-- Modelled from the spec: decoding of an unsigned integer that must fit in
`k` bytes (`u8`: k = 1, `u64`: k = 8, `H160`: k = 20, `H256`: k = 32);
longer strings are rejected, list items are not data. -/
def decUintBounded (k : Nat) : RlpItem → Except DecoderError Nat
  | .str l => if l.length ≤ k then .ok (bytesToNat l) else .error .RlpIsTooBig
  | .list _ => .error .RlpExpectedToBeData

/-- Modelled from the spec: decoding of an unsigned integer with no width
bound (used for the abstractly modelled `SocketAddr`). -/
def decUintFree : RlpItem → Except DecoderError Nat
  | .str l => .ok (bytesToNat l)
  | .list _ => .error .RlpExpectedToBeData

/-- Discovery wire message (spec section 6): `Request(bucket_size: u8)` or
`Response(addresses)`. The Rust enum lives in the discovery crate's
`message.rs`, which is outside the provided sources. -/
inductive Message where
  | Request (len : Nat) : Message
  | Response (addresses : List SocketAddr) : Message
deriving DecidableEq

/-- Modelled from the spec: family tag of a discovery `Request`. -/
def MESSAGE_ID_REQUEST : Nat := 1

/-- Modelled from the spec: family tag of a discovery `Response`. -/
def MESSAGE_ID_RESPONSE : Nat := 2

/-- Modelled from the spec: list encoding of a discovery message — a
two-item list of the family tag and the body (`Encodable::rlp_bytes`). -/
def Message.rlp_bytes : Message → RlpItem
  | .Request len => .list [encUint MESSAGE_ID_REQUEST, encUint len]
  | .Response addresses => .list [encUint MESSAGE_ID_RESPONSE, .list (addresses.map encUint)]

/-- Decode each element of a list body as a `SocketAddr`. -/
def decAddrList : List RlpItem → Except DecoderError (List SocketAddr)
  | [] => .ok []
  | x :: xs =>
    match decUintFree x with
    | .error e => .error e
    | .ok a =>
      match decAddrList xs with
      | .error e => .error e
      | .ok rest => .ok (a :: rest)

/-- Modelled from the spec: `Message::decode` — reject items that are not a
two-item list, reject unknown family tags, and decode the body per tag. -/
def Message.decode : RlpItem → Except DecoderError Message
  | .list [tag, body] =>
    match decUintBounded 1 tag with
    | .error e => .error e
    | .ok t =>
      if t = MESSAGE_ID_REQUEST then
        match decUintBounded 1 body with
        | .error e => .error e
        | .ok len => .ok (.Request len)
      else if t = MESSAGE_ID_RESPONSE then
        match body with
        | .list items =>
          match decAddrList items with
          | .error e => .error e
          | .ok addresses => .ok (.Response addresses)
        | .str _ => .error .RlpExpectedToBeList
      else .error (.Custom "Invalid message id")
  | .list _ => .error .RlpInvalidLength
  | .str _ => .error .RlpExpectedToBeList

/-- Modelled from the spec: the shared Routing Table contract (section 3 and
6): reachable addresses are read per peer address; `add_candidate` inserts
into the candidate class and touches nothing else. -/
structure RoutingTable where
  reachable : SocketAddr → List SocketAddr
  candidates : List SocketAddr

/-- Modelled from the spec: `RoutingTable::reachable_addresses`. -/
def RoutingTable.reachable_addresses (rt : RoutingTable) (addr : SocketAddr) : List SocketAddr :=
  rt.reachable addr

/-- Modelled from the spec: `RoutingTable::add_candidate`. -/
def RoutingTable.add_candidate (rt : RoutingTable) (address : SocketAddr) : RoutingTable :=
  { rt with candidates := address :: rt.candidates }

/-- Discovery configuration (`super::Config`): `bucket_size` (a `u8`) and
`t_refresh` in milliseconds. -/
structure Config where
  bucket_size : Nat
  t_refresh : Nat

/-- State of `unstructured::Extension`: the config, the optional shared
routing table, the optional manager api handle (only its presence matters
for the control flow), and the tracked node set (a `HashSet`, modelled as a
duplicate-free list). -/
structure Extension where
  config : Config
  routing_table : Option RoutingTable
  api : Option Unit
  nodes : List NodeId

/-- The single timer token registered by the extension. -/
def REFRESH_TOKEN : Nat := 0

/-- `Extension::on_initialize`: install the api handle; the returned list is
the set of timer tokens registered by the call (`set_timer(REFRESH_TOKEN)`
is the only registration in the extension). -/
def Extension.on_init (st : Extension) : Extension × List Nat :=
  ({ st with api := some () }, [REFRESH_TOKEN])

/-- `Extension::on_node_added`: insert the node into the tracked set; if the
api handle is present, send `Request(bucket_size)` to that node. -/
def Extension.on_node_added (st : Extension) (node : NodeId) (_version : Nat) :
    Extension × List (NodeId × Message) :=
  let nodes' := if node ∈ st.nodes then st.nodes else node :: st.nodes
  let st' := { st with nodes := nodes' }
  match st'.api with
  | some _ => (st', [(node, Message.Request st'.config.bucket_size)])
  | none => (st', [])

/-- `Extension::on_node_removed`: remove the node from the tracked set. -/
def Extension.on_node_removed (st : Extension) (node : NodeId) : Extension :=
  { st with nodes := st.nodes.erase node }

/-- `Extension::on_message`: decode the payload (logging and dropping it on
failure); on `Request(len)`, when both the api and the routing table are
present, shuffle the sender's reachable addresses, take
`min(bucket_size, len)` of them and reply with a `Response`; on
`Response(addresses)`, when the routing table is present, add every address
as a candidate, otherwise log and drop. The random shuffle is passed in as
a function (theorems assume it permutes its input). -/
def Extension.on_message (shuffle : List SocketAddr → List SocketAddr) (st : Extension)
    (node : NodeId) (message : RlpItem) : Extension × List (NodeId × Message) :=
  match Message.decode message with
  | .error _ => (st, [])
  | .ok (.Request len) =>
    match st.api, st.routing_table with
    | some _, some rt =>
      let addresses := rt.reachable_addresses (into_addr node)
      let taken := (shuffle addresses).take (min st.config.bucket_size len)
      (st, [(node, Message.Response taken)])
    | _, _ => (st, [])
  | .ok (.Response addresses) =>
    match st.routing_table with
    | none => (st, [])
    | some rt =>
      ({ st with routing_table := some (addresses.foldl RoutingTable.add_candidate rt) }, [])

/-- `Extension::on_timeout` (`TimeoutHandler`): on `REFRESH_TOKEN`, when the
api handle is present, send `Request(bucket_size)` to every tracked node;
any other token hits the `unreachable!()` branch, modelled as `none`. -/
def Extension.on_timeout (st : Extension) (timer : Nat) :
    Option (Extension × List (NodeId × Message)) :=
  if timer = REFRESH_TOKEN then
    some (match st.api with
      | some _ => (st, st.nodes.map fun n => (n, Message.Request st.config.bucket_size))
      | none => (st, []))
  else none

/-- The reachable-address view of an extension state's routing table, used
to state that no extension operation writes to the reachable class. -/
def reachableOf (st : Extension) : Option (SocketAddr → List SocketAddr) :=
  st.routing_table.map RoutingTable.reachable

/-- Modelled from the spec: a pool entry of an asset scheme
(`super::asset::Asset`, outside the provided sources); the state items are
specified only at their interface, so an `Asset` is an opaque record of an
asset type (an `H256`) and an amount (a `u64`) with a list encoding per the
Wire Codec contract. -/
structure Asset where
  asset_type : Nat
  amount : Nat
deriving DecidableEq

/-- Modelled from the spec: list encoding of an `Asset` pool entry. -/
def Asset.rlp_append (a : Asset) : RlpItem :=
  .list [encUint a.asset_type, encUint a.amount]

/-- Modelled from the spec: decoding of an `Asset` pool entry. -/
def Asset.decode : RlpItem → Except DecoderError Asset
  | .list [t, m] =>
    match decUintBounded 32 t with
    | .error e => .error e
    | .ok ty =>
      match decUintBounded 8 m with
      | .error e => .error e
      | .ok am => .ok ⟨ty, am⟩
  | .list _ => .error .RlpInvalidLength
  | .str _ => .error .RlpExpectedToBeList

/-- `AssetScheme` (`src/state/src/item/asset_scheme.rs`): metadata is a byte
string (a Rust `String`), the amount a `u64`, approver and administrator
optional 160-bit addresses, `allowed_script_hashes` a vector of `H160` and
`pool` a vector of `Asset`; the 160/256-bit hashes are modelled as bounded
naturals. -/
structure AssetScheme where
  metadata : List Nat
  amount : Nat
  approver : Option Nat
  administrator : Option Nat
  allowed_script_hashes : List Nat
  pool : List Asset
deriving DecidableEq

/-- The source constant `PREFIX = super::ASSET_SCHEME_PREFIX`, the leading
type-tag byte of an encoded asset scheme (the byte of the letter S). -/
def PREFIX_BYTE : Nat := 83

/-- Modelled from the spec: the rlp crate's encoding of an `Option` value —
an empty list for `None`, a one-item list for `Some`. -/
def encOptAddr : Option Nat → RlpItem
  | none => .list []
  | some a => .list [encUint a]

/-- Modelled from the spec: the rlp crate's decoding of an optional `H160`. -/
def decOptAddr : RlpItem → Except DecoderError (Option Nat)
  | .list [] => .ok none
  | .list [x] =>
    match decUintBounded 20 x with
    | .error e => .error e
    | .ok a => .ok (some a)
  | .list _ => .error .RlpIncorrectListLen
  | .str _ => .error .RlpExpectedToBeList

/-- Modelled from the spec: decoding of a byte-string item (a Rust
`String`'s bytes). -/
def decBytes : RlpItem → Except DecoderError (List Nat)
  | .str l => .ok l
  | .list _ => .error .RlpExpectedToBeData

/-- Decode each element of a list body as an `H160`. -/
def decHashList : List RlpItem → Except DecoderError (List Nat)
  | [] => .ok []
  | x :: xs =>
    match decUintBounded 20 x with
    | .error e => .error e
    | .ok a =>
      match decHashList xs with
      | .error e => .error e
      | .ok rest => .ok (a :: rest)

/-- Decode each element of a list body as an `Asset`. -/
def decAssetList : List RlpItem → Except DecoderError (List Asset)
  | [] => .ok []
  | x :: xs =>
    match Asset.decode x with
    | .error e => .error e
    | .ok a =>
      match decAssetList xs with
      | .error e => .error e
      | .ok rest => .ok (a :: rest)

/-- `Encodable for AssetScheme`: a 7-item list of the type tag, metadata,
amount, approver, administrator, the allowed script hashes and the pool. -/
def AssetScheme.rlp_append (s : AssetScheme) : RlpItem :=
  .list [encUint PREFIX_BYTE, .str s.metadata, encUint s.amount,
         encOptAddr s.approver, encOptAddr s.administrator,
         .list (s.allowed_script_hashes.map encUint),
         .list (s.pool.map Asset.rlp_append)]

/-- `Decodable for AssetScheme`: reject a non-list item
(`RlpExpectedToBeList`, raised by `item_count`), reject an item count other
than 7 (`RlpInvalidLength`), reject a leading byte other than the scheme
tag (`Custom "Unexpected prefix"`), then decode the six fields in order. -/
def AssetScheme.decode : RlpItem → Except DecoderError AssetScheme
  | .list [i0, i1, i2, i3, i4, i5, i6] =>
    match decUintBounded 1 i0 with
    | .error e => .error e
    | .ok p =>
      if p = PREFIX_BYTE then
        match decBytes i1 with
        | .error e => .error e
        | .ok metadata =>
          match decUintBounded 8 i2 with
          | .error e => .error e
          | .ok amount =>
            match decOptAddr i3 with
            | .error e => .error e
            | .ok approver =>
              match decOptAddr i4 with
              | .error e => .error e
              | .ok administrator =>
                match i5 with
                | .str _ => .error .RlpExpectedToBeList
                | .list xs5 =>
                  match decHashList xs5 with
                  | .error e => .error e
                  | .ok allowed =>
                    match i6 with
                    | .str _ => .error .RlpExpectedToBeList
                    | .list xs6 =>
                      match decAssetList xs6 with
                      | .error e => .error e
                      | .ok pool =>
                        .ok ⟨metadata, amount, approver, administrator, allowed, pool⟩
      else .error (.Custom "Unexpected prefix")
  | .list _ => .error .RlpInvalidLength
  | .str _ => .error .RlpExpectedToBeList

/-! ## Helper lemmas about the byte codec -/

theorem bytesToNat_append_singleton (l : List Nat) (b : Nat) :
    bytesToNat (l ++ [b]) = bytesToNat l * 256 + b := by
  simp [bytesToNat, List.foldl_append]

theorem bytesToNat_natToBytesAux (fuel n : Nat) (h : n ≤ fuel) :
    bytesToNat (natToBytesAux fuel n) = n := by
  induction fuel generalizing n with
  | zero =>
    have hn : n = 0 := Nat.le_zero.mp h
    subst hn
    rfl
  | succ fuel ih =>
    cases n with
    | zero => rfl
    | succ m =>
      have hdiv : (m + 1) / 256 ≤ fuel := by
        have := Nat.div_lt_self (Nat.succ_pos m) (by norm_num : 1 < 256)
        omega
      rw [natToBytesAux, bytesToNat_append_singleton, ih _ hdiv]
      omega

theorem bytesToNat_natToBytes (n : Nat) : bytesToNat (natToBytes n) = n :=
  bytesToNat_natToBytesAux n n le_rfl

theorem natToBytesAux_length_le (fuel : Nat) :
    ∀ n k, n ≤ fuel → n < 256 ^ k → (natToBytesAux fuel n).length ≤ k := by
  induction fuel with
  | zero =>
    intro n k hf _
    have hn : n = 0 := Nat.le_zero.mp hf
    subst hn
    simp [natToBytesAux]
  | succ fuel ih =>
    intro n k hf hk
    cases n with
    | zero => simp [natToBytesAux]
    | succ m =>
      cases k with
      | zero => simp at hk
      | succ k =>
        have hdivf : (m + 1) / 256 ≤ fuel := by
          have := Nat.div_lt_self (Nat.succ_pos m) (by norm_num : 1 < 256)
          omega
        have hdivk : (m + 1) / 256 < 256 ^ k := by
          rw [Nat.div_lt_iff_lt_mul (by norm_num : 0 < 256)]
          calc m + 1 < 256 ^ (k + 1) := hk
            _ = 256 ^ k * 256 := by rw [pow_succ]
        have := ih _ _ hdivf hdivk
        rw [natToBytesAux, List.length_append]
        simp only [List.length_singleton]
        omega

theorem natToBytes_length_le (n k : Nat) (h : n < 256 ^ k) :
    (natToBytes n).length ≤ k :=
  natToBytesAux_length_le n n k le_rfl h

theorem decUintBounded_encUint (k n : Nat) (h : n < 256 ^ k) :
    decUintBounded k (encUint n) = .ok n := by
  simp [decUintBounded, encUint, natToBytes_length_le n k h, bytesToNat_natToBytes]

theorem decUintFree_encUint (n : Nat) : decUintFree (encUint n) = .ok n := by
  simp [decUintFree, encUint, bytesToNat_natToBytes]

theorem decAddrList_map_encUint (l : List SocketAddr) :
    decAddrList (l.map encUint) = .ok l := by
  induction l with
  | nil => rfl
  | cons a l ih => simp [decAddrList, decUintFree_encUint, ih]

/-! ## Helper lemmas about the discovery message codec -/

theorem Message.decode_rlp_bytes_request (n : Nat) (h : n < 256) :
    Message.decode (Message.rlp_bytes (.Request n)) = .ok (.Request n) := by
  have h1 : decUintBounded 1 (encUint 1) = .ok 1 := rfl
  have h2 : decUintBounded 1 (encUint n) = .ok n :=
    decUintBounded_encUint 1 n (by simpa using h)
  simp [Message.rlp_bytes, Message.decode, h1, h2, MESSAGE_ID_REQUEST]

theorem Message.decode_rlp_bytes_response (addresses : List SocketAddr) :
    Message.decode (Message.rlp_bytes (.Response addresses)) = .ok (.Response addresses) := by
  have h1 : decUintBounded 1 (encUint 2) = .ok 2 := rfl
  simp [Message.rlp_bytes, Message.decode, h1, decAddrList_map_encUint,
    MESSAGE_ID_REQUEST, MESSAGE_ID_RESPONSE]

/-! ## Helper lemmas about the routing table -/

theorem foldl_add_candidate_candidates (l : List SocketAddr) (rt : RoutingTable) :
    (l.foldl RoutingTable.add_candidate rt).candidates = l.reverse ++ rt.candidates := by
  induction l generalizing rt with
  | nil => simp
  | cons a l ih =>
    simp [List.foldl_cons, ih, RoutingTable.add_candidate]

theorem foldl_add_candidate_reachable (l : List SocketAddr) (rt : RoutingTable) :
    (l.foldl RoutingTable.add_candidate rt).reachable = rt.reachable := by
  induction l generalizing rt with
  | nil => rfl
  | cons a l ih => simp [List.foldl_cons, ih, RoutingTable.add_candidate]

/-! ## Claim theorems -/

/-- C4: every call to `on_node_added(node, version)` (with the manager api
handle installed) inserts the NodeId into the tracked set and immediately
sends a `Request(bucket_size)` message to that node. -/
theorem node_added_tracks_and_requests
    (st : Extension) (node : NodeId) (version : Nat)
    (hapi : st.api = some ()) :
    node ∈ (st.on_node_added node version).1.nodes ∧
    (st.on_node_added node version).2 = [(node, Message.Request st.config.bucket_size)] := by
  constructor
  · by_cases hmem : node ∈ st.nodes <;>
      simp [Extension.on_node_added, hapi, hmem]
  · simp [Extension.on_node_added, hapi]

/-- Witness for C4 at a concrete state: bucket size 4, node 3 fresh. -/
theorem node_added_tracks_and_requests_witness :
    (⟨⟨4, 1000⟩, none, some (), [9]⟩ : Extension).api = some () ∧
    (3 ∈ ((⟨⟨4, 1000⟩, none, some (), [9]⟩ : Extension).on_node_added 3 0).1.nodes ∧
     ((⟨⟨4, 1000⟩, none, some (), [9]⟩ : Extension).on_node_added 3 0).2
       = [(3, Message.Request 4)]) :=
  ⟨rfl, node_added_tracks_and_requests ⟨⟨4, 1000⟩, none, some (), [9]⟩ 3 0 rfl⟩

/-- C5: a payload that fails to decode as a discovery `Message` is dropped:
`on_message` returns with the extension state unchanged and no message
sent, and no error is propagated (the handler is total). -/
theorem malformed_message_dropped
    (shuffle : List SocketAddr → List SocketAddr) (st : Extension) (node : NodeId)
    (message : RlpItem) (e : DecoderError)
    (hdec : Message.decode message = .error e) :
    Extension.on_message shuffle st node message = (st, []) := by
  unfold Extension.on_message
  rw [hdec]

/-- Witness for C5 at a concrete malformed payload (a bare byte string is
not a two-item list). -/
theorem malformed_message_dropped_witness :
    Message.decode (.str [1, 2, 3]) = .error .RlpExpectedToBeList ∧
    Extension.on_message id ⟨⟨4, 1000⟩, none, none, []⟩ 5 (.str [1, 2, 3])
      = (⟨⟨4, 1000⟩, none, none, []⟩, []) :=
  ⟨rfl, malformed_message_dropped id ⟨⟨4, 1000⟩, none, none, []⟩ 5 (.str [1, 2, 3])
    .RlpExpectedToBeList rfl⟩

/-- C6: `on_timeout` on any token other than `REFRESH_TOKEN` hits the
`unreachable!()` branch (modelled as `none`), and every token the extension
ever registers (`on_initialize` registers only `REFRESH_TOKEN`) is handled
without reaching that branch. -/
theorem unknown_timer_token_unreachable
    (st : Extension) (t : Nat) (ht : t ≠ REFRESH_TOKEN) :
    st.on_timeout t = none ∧
    ∀ t' ∈ (st.on_init).2, (st.on_timeout t').isSome := by
  constructor
  · simp [Extension.on_timeout, ht]
  · intro t' ht'
    simp only [Extension.on_init, List.mem_singleton] at ht'
    subst ht'
    simp [Extension.on_timeout]

/-- Witness for C6 at a concrete state and the concrete token 5. -/
theorem unknown_timer_token_unreachable_witness :
    (5 : Nat) ≠ REFRESH_TOKEN ∧
    ((⟨⟨4, 1000⟩, none, some (), [2]⟩ : Extension).on_timeout 5 = none ∧
     ∀ t' ∈ ((⟨⟨4, 1000⟩, none, some (), [2]⟩ : Extension).on_init).2,
       ((⟨⟨4, 1000⟩, none, some (), [2]⟩ : Extension).on_timeout t').isSome) :=
  ⟨by decide, unknown_timer_token_unreachable ⟨⟨4, 1000⟩, none, some (), [2]⟩ 5 (by decide)⟩

/-- C7: a decodable `Response(addresses)` received while the routing table
reference is unset is logged and dropped: the handler returns normally with
the state unchanged, no candidate inserted and nothing sent. -/
theorem response_without_table_dropped
    (shuffle : List SocketAddr → List SocketAddr) (st : Extension) (node : NodeId)
    (addresses : List SocketAddr)
    (hrt : st.routing_table = none) :
    Extension.on_message shuffle st node (Message.rlp_bytes (.Response addresses)) = (st, []) := by
  simp [Extension.on_message, Message.decode_rlp_bytes_response, hrt]

/-- Witness for C7 at a concrete state with no routing table. -/
theorem response_without_table_dropped_witness :
    (⟨⟨4, 1000⟩, none, some (), [2]⟩ : Extension).routing_table = none ∧
    Extension.on_message id ⟨⟨4, 1000⟩, none, some (), [2]⟩ 5
      (Message.rlp_bytes (.Response [6, 7]))
      = (⟨⟨4, 1000⟩, none, some (), [2]⟩, []) :=
  ⟨rfl, response_without_table_dropped id ⟨⟨4, 1000⟩, none, some (), [2]⟩ 5 [6, 7] rfl⟩

/-- C9: before `on_initialize` installs the api handle, `on_node_added`
still inserts the node into the tracked set but silently skips the send;
the refresh timer likewise sends nothing; and `Request` handling is a
silent no-op while the api handle or the routing table is unset. -/
theorem uninitialized_extension_skips_sends
    (shuffle : List SocketAddr → List SocketAddr) (st : Extension) (node : NodeId)
    (n version : Nat) (hn : n < 256) :
    (st.api = none →
      (node ∈ (st.on_node_added node version).1.nodes ∧
       (st.on_node_added node version).2 = []) ∧
      st.on_timeout REFRESH_TOKEN = some (st, []) ∧
      Extension.on_message shuffle st node (Message.rlp_bytes (.Request n)) = (st, [])) ∧
    (st.routing_table = none →
      Extension.on_message shuffle st node (Message.rlp_bytes (.Request n)) = (st, [])) := by
  constructor
  · intro hapi
    refine ⟨⟨?_, ?_⟩, ?_, ?_⟩
    · by_cases hmem : node ∈ st.nodes <;>
        simp [Extension.on_node_added, hapi, hmem]
    · simp [Extension.on_node_added, hapi]
    · simp [Extension.on_timeout, hapi]
    · simp [Extension.on_message, Message.decode_rlp_bytes_request n hn, hapi]
  · intro hrt
    rcases hapi : st.api with _ | u <;>
      simp [Extension.on_message, Message.decode_rlp_bytes_request n hn, hapi, hrt]

/-- Witness for C9 at a concrete state with neither api nor routing table. -/
theorem uninitialized_extension_skips_sends_witness :
    (3 : Nat) < 256 ∧
    (((⟨⟨4, 1000⟩, none, none, []⟩ : Extension).api = none →
      (7 ∈ ((⟨⟨4, 1000⟩, none, none, []⟩ : Extension).on_node_added 7 0).1.nodes ∧
       ((⟨⟨4, 1000⟩, none, none, []⟩ : Extension).on_node_added 7 0).2 = []) ∧
      (⟨⟨4, 1000⟩, none, none, []⟩ : Extension).on_timeout REFRESH_TOKEN
        = some (⟨⟨4, 1000⟩, none, none, []⟩, []) ∧
      Extension.on_message id ⟨⟨4, 1000⟩, none, none, []⟩ 7
        (Message.rlp_bytes (.Request 3)) = (⟨⟨4, 1000⟩, none, none, []⟩, [])) ∧
     ((⟨⟨4, 1000⟩, none, none, []⟩ : Extension).routing_table = none →
      Extension.on_message id ⟨⟨4, 1000⟩, none, none, []⟩ 7
        (Message.rlp_bytes (.Request 3)) = (⟨⟨4, 1000⟩, none, none, []⟩, []))) :=
  ⟨by decide, uninitialized_extension_skips_sends id ⟨⟨4, 1000⟩, none, none, []⟩ 7 3 0 (by decide)⟩

/-! ## Helper lemmas about the extension's state effects -/

theorem on_timeout_fst (st : Extension) (t : Nat) (out : Extension × List (NodeId × Message))
    (h : st.on_timeout t = some out) : out.1 = st := by
  unfold Extension.on_timeout at h
  by_cases ht : t = REFRESH_TOKEN
  · rw [if_pos ht] at h
    rcases hA : st.api with _ | u <;> rw [hA] at h <;>
      obtain rfl := (Option.some.inj h).symm <;> rfl
  · rw [if_neg ht] at h
    cases h

theorem reachableOf_on_message (shuffle : List SocketAddr → List SocketAddr)
    (st : Extension) (node : NodeId) (message : RlpItem) :
    reachableOf (Extension.on_message shuffle st node message).1 = reachableOf st := by
  unfold Extension.on_message
  rcases hdec : Message.decode message with e | m
  · simp [hdec]
  · cases m with
    | Request len =>
      rcases hA : st.api with _ | u <;>
        rcases hR : st.routing_table with _ | rt2 <;>
        simp [hdec, hA, hR]
    | Response addrs =>
      rcases hR : st.routing_table with _ | rt2
      · simp [hdec, hR]
      · simp [hdec, hR, reachableOf, foldl_add_candidate_reachable]

theorem reachableOf_on_node_added (st : Extension) (node : NodeId) (version : Nat) :
    reachableOf (st.on_node_added node version).1 = reachableOf st := by
  rcases hA : st.api with _ | u <;> simp [Extension.on_node_added, hA, reachableOf]

theorem reachableOf_on_node_removed (st : Extension) (node : NodeId) :
    reachableOf (st.on_node_removed node) = reachableOf st := by
  simp [Extension.on_node_removed, reachableOf]

/-- C1: a received `Request(n)` (with api and routing table present) is
answered by exactly one `Response` back to the requester, holding at most
`min(bucket_size, n)` addresses, all drawn from the routing table's
reachable addresses for the sender and pairwise distinct; the shuffle is
any permutation and the reachable addresses form a set (no duplicates). -/
theorem request_reply_bounded_distinct
    (shuffle : List SocketAddr → List SocketAddr)
    (hshuffle : ∀ l, (shuffle l).Perm l)
    (st : Extension) (node : NodeId) (n : Nat) (rt : RoutingTable)
    (hn : n < 256)
    (hapi : st.api = some ())
    (hrt : st.routing_table = some rt)
    (hnodup : (rt.reachable_addresses (into_addr node)).Nodup) :
    ∃ addrs,
      (Extension.on_message shuffle st node (Message.rlp_bytes (.Request n))).2
        = [(node, Message.Response addrs)] ∧
      addrs.length ≤ min st.config.bucket_size n ∧
      addrs.Nodup ∧
      ∀ a ∈ addrs, a ∈ rt.reachable_addresses (into_addr node) := by
  refine ⟨(shuffle (rt.reachable_addresses (into_addr node))).take
    (min st.config.bucket_size n), ?_, ?_, ?_, ?_⟩
  · simp [Extension.on_message, Message.decode_rlp_bytes_request n hn, hapi, hrt]
  · rw [List.length_take]
    exact min_le_left _ _
  · exact (List.take_sublist _ _).nodup ((hshuffle _).nodup_iff.mpr hnodup)
  · intro a ha
    exact (hshuffle _).mem_iff.mp (List.mem_of_mem_take ha)

/-- Witness for C1: identity shuffle, bucket size 2, request for 3, three
reachable addresses. -/
theorem request_reply_bounded_distinct_witness :
    (∀ l : List SocketAddr, (id l).Perm l) ∧
    (3 : Nat) < 256 ∧
    (⟨⟨2, 60000⟩, some ⟨fun _ => [10, 11, 12], []⟩, some (), [7]⟩ : Extension).api = some () ∧
    (⟨⟨2, 60000⟩, some ⟨fun _ => [10, 11, 12], []⟩, some (), [7]⟩ : Extension).routing_table
      = some ⟨fun _ => [10, 11, 12], []⟩ ∧
    ((⟨fun _ => [10, 11, 12], []⟩ : RoutingTable).reachable_addresses (into_addr 7)).Nodup ∧
    (∃ addrs,
      (Extension.on_message id ⟨⟨2, 60000⟩, some ⟨fun _ => [10, 11, 12], []⟩, some (), [7]⟩ 7
        (Message.rlp_bytes (.Request 3))).2
        = [(7, Message.Response addrs)] ∧
      addrs.length ≤ min
        (⟨⟨2, 60000⟩, some ⟨fun _ => [10, 11, 12], []⟩, some (), [7]⟩ : Extension).config.bucket_size 3 ∧
      addrs.Nodup ∧
      ∀ a ∈ addrs, a ∈ (⟨fun _ => [10, 11, 12], []⟩ : RoutingTable).reachable_addresses (into_addr 7)) :=
  ⟨fun l => List.Perm.refl l, by decide, rfl, rfl, by decide,
    request_reply_bounded_distinct id (fun l => List.Perm.refl l)
      ⟨⟨2, 60000⟩, some ⟨fun _ => [10, 11, 12], []⟩, some (), [7]⟩ 7 3
      ⟨fun _ => [10, 11, 12], []⟩ (by decide) rfl rfl (by decide)⟩

/-- C2: every address of a received `Response` (with the routing table set)
is inserted into the routing table as a candidate, with no truncation
however long the list is, the handler sends nothing, and no operation of
the extension ever writes to the reachable class. -/
theorem response_addresses_become_candidates
    (shuffle : List SocketAddr → List SocketAddr) (st : Extension) (node : NodeId)
    (addresses : List SocketAddr) (rt : RoutingTable)
    (hrt : st.routing_table = some rt) :
    (∃ rt',
      (Extension.on_message shuffle st node (Message.rlp_bytes (.Response addresses))).1.routing_table
        = some rt' ∧
      (∀ a ∈ addresses, a ∈ rt'.candidates) ∧
      rt'.reachable = rt.reachable) ∧
    (Extension.on_message shuffle st node (Message.rlp_bytes (.Response addresses))).2 = [] ∧
    (∀ message, reachableOf (Extension.on_message shuffle st node message).1 = reachableOf st) ∧
    (∀ version, reachableOf (st.on_node_added node version).1 = reachableOf st) ∧
    reachableOf (st.on_node_removed node) = reachableOf st ∧
    (∀ t out, st.on_timeout t = some out → reachableOf out.1 = reachableOf st) := by
  have hmain : Extension.on_message shuffle st node (Message.rlp_bytes (.Response addresses))
      = ({ st with routing_table := some (addresses.foldl RoutingTable.add_candidate rt) }, []) := by
    simp [Extension.on_message, Message.decode_rlp_bytes_response, hrt]
  refine ⟨⟨addresses.foldl RoutingTable.add_candidate rt, ?_, ?_, ?_⟩, ?_, ?_, ?_, ?_, ?_⟩
  · rw [hmain]
  · intro a ha
    rw [foldl_add_candidate_candidates]
    exact List.mem_append_left _ (List.mem_reverse.mpr ha)
  · exact foldl_add_candidate_reachable addresses rt
  · rw [hmain]
  · intro message
    exact reachableOf_on_message shuffle st node message
  · intro version
    exact reachableOf_on_node_added st node version
  · exact reachableOf_on_node_removed st node
  · intro t out hout
    rw [on_timeout_fst st t out hout]

/-- Witness for C2: a response with three addresses, one of them already a
candidate, against a table with one reachable and one candidate address. -/
theorem response_addresses_become_candidates_witness :
    (⟨⟨2, 60000⟩, some ⟨fun _ => [10], [99]⟩, some (), [7]⟩ : Extension).routing_table
      = some ⟨fun _ => [10], [99]⟩ ∧
    ((∃ rt',
      (Extension.on_message id ⟨⟨2, 60000⟩, some ⟨fun _ => [10], [99]⟩, some (), [7]⟩ 7
        (Message.rlp_bytes (.Response [5, 6, 99]))).1.routing_table
        = some rt' ∧
      (∀ a ∈ [5, 6, 99], a ∈ rt'.candidates) ∧
      rt'.reachable = (⟨fun _ => [10], [99]⟩ : RoutingTable).reachable) ∧
    (Extension.on_message id ⟨⟨2, 60000⟩, some ⟨fun _ => [10], [99]⟩, some (), [7]⟩ 7
        (Message.rlp_bytes (.Response [5, 6, 99]))).2 = [] ∧
    (∀ message, reachableOf (Extension.on_message id
        ⟨⟨2, 60000⟩, some ⟨fun _ => [10], [99]⟩, some (), [7]⟩ 7 message).1
      = reachableOf ⟨⟨2, 60000⟩, some ⟨fun _ => [10], [99]⟩, some (), [7]⟩) ∧
    (∀ version, reachableOf ((⟨⟨2, 60000⟩, some ⟨fun _ => [10], [99]⟩, some (), [7]⟩ : Extension).on_node_added 7 version).1
      = reachableOf ⟨⟨2, 60000⟩, some ⟨fun _ => [10], [99]⟩, some (), [7]⟩) ∧
    reachableOf ((⟨⟨2, 60000⟩, some ⟨fun _ => [10], [99]⟩, some (), [7]⟩ : Extension).on_node_removed 7)
      = reachableOf ⟨⟨2, 60000⟩, some ⟨fun _ => [10], [99]⟩, some (), [7]⟩ ∧
    (∀ t out, (⟨⟨2, 60000⟩, some ⟨fun _ => [10], [99]⟩, some (), [7]⟩ : Extension).on_timeout t = some out →
      reachableOf out.1 = reachableOf ⟨⟨2, 60000⟩, some ⟨fun _ => [10], [99]⟩, some (), [7]⟩)) :=
  ⟨rfl, response_addresses_become_candidates id
    ⟨⟨2, 60000⟩, some ⟨fun _ => [10], [99]⟩, some (), [7]⟩ 7 [5, 6, 99]
    ⟨fun _ => [10], [99]⟩ rfl⟩

/-- C3: when the refresh timer fires (api installed, tracked set
duplicate-free), exactly one `Request(bucket_size)` is sent per tracked
node — the send list is exactly the tracked set's image, has the tracked
set's length, covers every tracked node, targets only tracked nodes — and
after removing a node with `on_node_removed`, the timer sends nothing to
the removed node. -/
theorem refresh_timer_fanout
    (st : Extension) (removed : NodeId)
    (hapi : st.api = some ())
    (hnodup : st.nodes.Nodup) :
    ∃ sends, st.on_timeout REFRESH_TOKEN = some (st, sends) ∧
      sends = st.nodes.map (fun nd => (nd, Message.Request st.config.bucket_size)) ∧
      sends.length = st.nodes.length ∧
      (∀ nd ∈ st.nodes, (nd, Message.Request st.config.bucket_size) ∈ sends) ∧
      (∀ p ∈ sends, p.1 ∈ st.nodes ∧ p.2 = Message.Request st.config.bucket_size) ∧
      (st.on_node_removed removed).on_timeout REFRESH_TOKEN
        = some (st.on_node_removed removed,
            (st.nodes.erase removed).map (fun nd => (nd, Message.Request st.config.bucket_size))) ∧
      (∀ p ∈ (st.nodes.erase removed).map (fun nd => (nd, Message.Request st.config.bucket_size)),
        p.1 ≠ removed) := by
  refine ⟨st.nodes.map (fun nd => (nd, Message.Request st.config.bucket_size)),
    ?_, rfl, ?_, ?_, ?_, ?_, ?_⟩
  · simp [Extension.on_timeout, hapi]
  · simp
  · intro nd hnd
    exact List.mem_map_of_mem _ hnd
  · intro p hp
    rcases List.mem_map.mp hp with ⟨nd, hnd, rfl⟩
    exact ⟨hnd, rfl⟩
  · simp [Extension.on_timeout, Extension.on_node_removed, hapi]
  · intro p hp
    rcases List.mem_map.mp hp with ⟨nd, hnd, rfl⟩
    exact (hnodup.mem_erase_iff.mp hnd).1

/-- Witness for C3: two tracked peers, one removed peer scenario. -/
theorem refresh_timer_fanout_witness :
    (⟨⟨4, 1000⟩, none, some (), [2, 5]⟩ : Extension).api = some () ∧
    ([2, 5] : List NodeId).Nodup ∧
    (∃ sends, (⟨⟨4, 1000⟩, none, some (), [2, 5]⟩ : Extension).on_timeout REFRESH_TOKEN
        = some (⟨⟨4, 1000⟩, none, some (), [2, 5]⟩, sends) ∧
      sends = ([2, 5] : List NodeId).map (fun nd => (nd, Message.Request 4)) ∧
      sends.length = ([2, 5] : List NodeId).length ∧
      (∀ nd ∈ ([2, 5] : List NodeId), (nd, Message.Request 4) ∈ sends) ∧
      (∀ p ∈ sends, p.1 ∈ ([2, 5] : List NodeId) ∧ p.2 = Message.Request 4) ∧
      ((⟨⟨4, 1000⟩, none, some (), [2, 5]⟩ : Extension).on_node_removed 5).on_timeout REFRESH_TOKEN
        = some ((⟨⟨4, 1000⟩, none, some (), [2, 5]⟩ : Extension).on_node_removed 5,
            (([2, 5] : List NodeId).erase 5).map (fun nd => (nd, Message.Request 4))) ∧
      (∀ p ∈ (([2, 5] : List NodeId).erase 5).map (fun nd => (nd, Message.Request 4)),
        p.1 ≠ 5)) :=
  ⟨rfl, by decide,
    refresh_timer_fanout ⟨⟨4, 1000⟩, none, some (), [2, 5]⟩ 5 rfl (by decide)⟩

/-! ## Helper lemmas for the AssetScheme round trip -/

theorem decOptAddr_encOptAddr (o : Option Nat) (h : ∀ a, o = some a → a < 256 ^ 20) :
    decOptAddr (encOptAddr o) = .ok o := by
  cases o with
  | none => rfl
  | some a => simp [encOptAddr, decOptAddr, decUintBounded_encUint 20 a (h a rfl)]

theorem decHashList_map_encUint (l : List Nat) (h : ∀ a ∈ l, a < 256 ^ 20) :
    decHashList (l.map encUint) = .ok l := by
  induction l with
  | nil => rfl
  | cons a l ih =>
    simp [decHashList, decUintBounded_encUint 20 a (h a (by simp)),
      ih (fun x hx => h x (by simp [hx]))]

theorem Asset.decode_rlp_append (a : Asset)
    (ht : a.asset_type < 256 ^ 32) (hm : a.amount < 256 ^ 8) :
    Asset.decode (Asset.rlp_append a) = .ok a := by
  simp [Asset.rlp_append, Asset.decode,
    decUintBounded_encUint 32 a.asset_type ht, decUintBounded_encUint 8 a.amount hm]

theorem decAssetList_map_rlp_append (l : List Asset)
    (h : ∀ x ∈ l, x.asset_type < 256 ^ 32 ∧ x.amount < 256 ^ 8) :
    decAssetList (l.map Asset.rlp_append) = .ok l := by
  induction l with
  | nil => rfl
  | cons a l ih =>
    have ha := h a (by simp)
    simp [decAssetList, Asset.decode_rlp_append a ha.1 ha.2,
      ih (fun x hx => h x (by simp [hx]))]

/-- C8 (amended): `AssetScheme::decode` never produces a value from a
malformed item and is self-checking: a list whose item count differs from
the schema's 7 fails with the invalid-length error, and a 7-item list
whose leading byte decodes to anything other than the scheme tag fails
with the unexpected-prefix error (the count check runs before the tag
check, so the invalid-length error wins when both conditions hold). -/
theorem assetScheme_decode_self_checking :
    (∀ items : List RlpItem, items.length ≠ 7 →
      AssetScheme.decode (.list items) = .error .RlpInvalidLength) ∧
    (∀ i0 i1 i2 i3 i4 i5 i6 : RlpItem, ∀ b : Nat,
      decUintBounded 1 i0 = .ok b → b ≠ PREFIX_BYTE →
      AssetScheme.decode (.list [i0, i1, i2, i3, i4, i5, i6])
        = .error (.Custom "Unexpected prefix")) := by
  constructor
  · intro items hlen
    rcases items with _ | ⟨a, _ | ⟨b, _ | ⟨c, _ | ⟨d, _ | ⟨e, _ | ⟨f, _ | ⟨g, _ | ⟨h8, rest⟩⟩⟩⟩⟩⟩⟩⟩ <;>
      first
        | rfl
        | exact absurd rfl hlen
  · intro i0 i1 i2 i3 i4 i5 i6 b hdec hb
    simp [AssetScheme.decode, hdec, hb]

/-- Witness for C8: a 6-short list is rejected for its count, and a
well-shaped 7-item list with tag byte 84 is rejected for its tag. -/
theorem assetScheme_decode_self_checking_witness :
    AssetScheme.decode (.list [encUint 83]) = .error .RlpInvalidLength ∧
    AssetScheme.decode
      (.list [encUint 84, .str [], encUint 0, .list [], .list [], .list [], .list []])
      = .error (.Custom "Unexpected prefix") :=
  ⟨assetScheme_decode_self_checking.1 [encUint 83] (by decide),
   assetScheme_decode_self_checking.2 (encUint 84) (.str []) (encUint 0)
     (.list []) (.list []) (.list []) (.list []) 84 rfl (by decide)⟩

/-- C8, counterexample to the claim as stated: a one-item list whose
leading byte is 84 — a tag that does not match the scheme's 83 — is
rejected with the invalid-length error, not an unexpected-prefix error,
because the field-count check runs first. -/
theorem assetScheme_decode_tag_mismatch_not_unexpected :
    decUintBounded 1 (encUint 84) = .ok 84 ∧
    (84 : Nat) ≠ PREFIX_BYTE ∧
    AssetScheme.decode (.list [encUint 84]) = .error .RlpInvalidLength ∧
    DecoderError.RlpInvalidLength ≠ DecoderError.Custom "Unexpected prefix" :=
  ⟨rfl, by decide, rfl, by decide⟩

/-- C10: decoding the list encoding of any `AssetScheme` value whose
numeric fields fit their Rust widths (`u64` amount, `H160` addresses and
script hashes, `H256`/`u64` pool entries) yields the original value. -/
theorem assetScheme_decode_rlp_append
    (s : AssetScheme)
    (hamount : s.amount < 256 ^ 8)
    (happ : ∀ a, s.approver = some a → a < 256 ^ 20)
    (hadm : ∀ a, s.administrator = some a → a < 256 ^ 20)
    (hallow : ∀ a ∈ s.allowed_script_hashes, a < 256 ^ 20)
    (hpool : ∀ x ∈ s.pool, x.asset_type < 256 ^ 32 ∧ x.amount < 256 ^ 8) :
    AssetScheme.decode (AssetScheme.rlp_append s) = .ok s := by
  have h0 : decUintBounded 1 (encUint PREFIX_BYTE) = .ok PREFIX_BYTE := rfl
  simp [AssetScheme.rlp_append, AssetScheme.decode, h0, decBytes,
    decUintBounded_encUint 8 s.amount hamount,
    decOptAddr_encOptAddr s.approver happ,
    decOptAddr_encOptAddr s.administrator hadm,
    decHashList_map_encUint s.allowed_script_hashes hallow,
    decAssetList_map_rlp_append s.pool hpool]

/-- Witness for C10 at a concrete scheme with metadata bytes, an approver,
no administrator, two script hashes and one pool entry. -/
theorem assetScheme_decode_rlp_append_witness :
    (⟨[104, 105], 3, some 4, none, [1, 2], [⟨9, 10⟩]⟩ : AssetScheme).amount < 256 ^ 8 ∧
    (∀ a, (⟨[104, 105], 3, some 4, none, [1, 2], [⟨9, 10⟩]⟩ : AssetScheme).approver = some a →
      a < 256 ^ 20) ∧
    (∀ a, (⟨[104, 105], 3, some 4, none, [1, 2], [⟨9, 10⟩]⟩ : AssetScheme).administrator = some a →
      a < 256 ^ 20) ∧
    (∀ a ∈ (⟨[104, 105], 3, some 4, none, [1, 2], [⟨9, 10⟩]⟩ : AssetScheme).allowed_script_hashes,
      a < 256 ^ 20) ∧
    (∀ x ∈ (⟨[104, 105], 3, some 4, none, [1, 2], [⟨9, 10⟩]⟩ : AssetScheme).pool,
      x.asset_type < 256 ^ 32 ∧ x.amount < 256 ^ 8) ∧
    AssetScheme.decode (AssetScheme.rlp_append ⟨[104, 105], 3, some 4, none, [1, 2], [⟨9, 10⟩]⟩)
      = .ok ⟨[104, 105], 3, some 4, none, [1, 2], [⟨9, 10⟩]⟩ := by
  refine ⟨by decide, ?_, ?_, by decide, by decide, ?_⟩
  · intro a ha
    cases Option.some.inj ha
    decide
  · intro a ha
    simp at ha
  · exact assetScheme_decode_rlp_append ⟨[104, 105], 3, some 4, none, [1, 2], [⟨9, 10⟩]⟩
      (by decide) (fun a ha => by cases Option.some.inj ha; decide)
      (fun a ha => by simp at ha) (by decide) (by decide)
